import Mathlib

/-!
Verification of the serial-device acquisition layer (Smart-ICA/Joao).

Shallow embedding of `src/Python/source_arduino.py` (and the simpler variant
`src/Python/Arduino_source.py`): JSON record model, the line validator
probe, the lock-file exclusivity guard, candidate-port enumeration, the
auto-detection loop, `setup`, and `get_output`.

Conventions of the embedding:
* The external library calls `json.loads` / `json.dumps` are out of scope
  per the specification; `json.loads` is modelled by an oracle parameter
  (success = the parsed object, failure = the raised JSONDecodeError), and
  `json.dumps` by a concrete encoder over the JSON value model.
* File-system and flock state is an explicit record threaded through the
  lock functions.  flock with LOCK_NB never blocks, so every operation is
  a total function on that state.
* A raised Python exception is an `Except.error`; `except` clauses are
  explicit matches on that error.
-/

namespace Joao

/-- JSON values as produced by `json.loads`.  String escaping inside
`dumps` is not modelled (payload strings are taken verbatim). -/
inductive JVal where
  | null : JVal
  | bool : Bool → JVal
  | num : Int → JVal
  | str : String → JVal
  | arr : List JVal → JVal
  | obj : List (String × JVal) → JVal
deriving BEq

/-- A decoded JSON object: its ordered field list (Python `dict` keeps
insertion order). -/
abbrev JObj := List (String × JVal)

/-- Python `data[k]` read: first binding of `k` wins (keys are unique in a
`dict`; the model keeps the list form). -/
def lookupField : JObj → String → Option JVal
  | [], _ => none
  | (k', v') :: rest, k => if k' = k then some v' else lookupField rest k

/-- Python `data[k] = v`: replaces the value in place when the key exists,
otherwise appends the new binding at the end (dict insertion order). -/
def setField : JObj → String → JVal → JObj
  | [], k, v => [(k, v)]
  | (k', v') :: rest, k, v =>
      if k' = k then (k, v) :: rest else (k', v') :: setField rest k v

mutual

/-- The `json.dumps` encoding of a JSON value, with the default separators. -/
def dumpsV : JVal → String
  | JVal.null => "null"
  | JVal.bool b => if b then "true" else "false"
  | JVal.num n => toString n
  | JVal.str s => "\"" ++ s ++ "\""
  | JVal.arr xs => "[" ++ dumpsArr xs ++ "]"
  | JVal.obj fs => "\x7b" ++ dumpsFields fs ++ "\x7d"

/-- Comma-joined rendering of an array body. -/
def dumpsArr : List JVal → String
  | [] => ""
  | [v] => dumpsV v
  | v :: rest => dumpsV v ++ ", " ++ dumpsArr rest

/-- Comma-joined rendering of an object body. -/
def dumpsFields : List (String × JVal) → String
  | [] => ""
  | [(k, v)] => "\"" ++ k ++ "\": " ++ dumpsV v
  | (k, v) :: rest => "\"" ++ k ++ "\": " ++ dumpsV v ++ ", " ++ dumpsFields rest

end

/-- The safe fallback payload returned by `get_output` on every
no-data / noise / error branch: the encoding of the one-field object
with the processed flag false. -/
def noDataJson : String := dumpsV (JVal.obj [("processed", JVal.bool false)])

/-! Section: Python string primitives, modelled on the character list -/

/-- Is the first list a prefix of the second (character-wise)? -/
def charsStartsWith : List Char → List Char → Bool
  | [], _ => true
  | _ :: _, [] => false
  | c :: cs, d :: ds => c == d && charsStartsWith cs ds

/-- Does `pat` occur as a contiguous run inside the list? -/
def charsContains (pat : List Char) : List Char → Bool
  | [] => pat.isEmpty
  | c :: rest => charsStartsWith pat (c :: rest) || charsContains pat rest

/-- Python `s.startswith(pat)`. -/
def strStartsWith (s pat : String) : Bool := charsStartsWith pat.data s.data

/-- Python `pat in s` (substring membership). -/
def strContains (s pat : String) : Bool := charsContains pat.data s.data

/-- Helper for `pyBasename`: keep the characters seen since the last
slash (accumulated in reverse). -/
def basenameAux : List Char → List Char → List Char
  | acc, [] => acc.reverse
  | acc, c :: rest => if c = '/' then basenameAux [] rest else basenameAux (c :: acc) rest

/-- Python `os.path.basename` for the slash-separated paths used here. -/
def pyBasename (p : String) : String := ⟨basenameAux [] p.data⟩

/-! Section: Line Validator: `_probe_for_valid_json` (source_arduino.py 93-124)

The serial stream is the list of successive `connection.readline()`
results **after** the settle sleep and `reset_input_buffer()` (both only
reorder time, not data, so the model starts at the post-reset stream).
`none` is an empty read (timeout, `b""`); `some raw` is the line after
`.decode("utf-8", errors="ignore").strip()` — with `errors="ignore"`
the decode itself never raises, so the `except` around it is dead.
Reads past the end of the list are empty reads.  `jsonOk` is the
`json.loads` success oracle.  The result pairs the returned Bool with
the number of `readline()` calls performed. -/
def probeGo (jsonOk : String → Bool) : Nat → List (Option String) → Bool × Nat
  | 0, _ => (false, 0)
  | k + 1, stream =>
    match stream.getD 0 none with
    | none =>
        -- `if not raw_bytes: continue`
        let r := probeGo jsonOk k stream.tail
        (r.1, r.2 + 1)
    | some raw =>
        if raw = "" || !(strStartsWith raw "\x7b") then
          -- `if not raw or not raw.startswith("{"): continue`
          let r := probeGo jsonOk k stream.tail
          (r.1, r.2 + 1)
        else if jsonOk raw then
          -- `json.loads(raw); return True`
          (true, 1)
        else
          -- `except json.JSONDecodeError: continue` / `except Exception: continue`
          let r := probeGo jsonOk k stream.tail
          (r.1, r.2 + 1)

/-- The function `_probe_for_valid_json(connection, max_lines, settle_seconds)`:
runs the probe loop for at most `max_lines` reads. -/
def probeForValidJson (jsonOk : String → Bool) (stream : List (Option String))
    (max_lines : Nat) : Bool × Nat :=
  probeGo jsonOk max_lines stream

/-- A read result on which the probe loop would return True: a non-empty
line that starts with the object marker and satisfies the `json.loads`
oracle. -/
def acceptingLine (jsonOk : String → Bool) : Option String → Bool
  | none => false
  | some raw => !(raw = "") && strStartsWith raw "\x7b" && jsonOk raw

/-! Section: Record Reader: `get_output` (source_arduino.py 220-254,
Arduino_source.py 22-56; both bodies are identical up to log text)

One call reads one line.  `parse` is the `json.loads` oracle
(`none` = raised JSONDecodeError; on a stripped line starting with
an opening brace a success is always a JSON object, hence `JObj`).
`n` is `state["n"]`.  An `Except.error` value is a Python exception
propagating to the caller. -/

/-- The behavior of the one `ser.readline()` call inside `get_output`:
an empty read, a line (already decoded with `errors="ignore"` and
stripped), or a raised serial I/O exception. -/
inductive ReadResult where
  | noBytes : ReadResult
  | line : String → ReadResult
  | ioError : ReadResult

/-- Exceptions distinguished by the two `except` clauses of `get_output`. -/
inductive PyExc where
  | jsonDecodeError : PyExc
  | otherError : PyExc

/-- The `try:` block of `get_output`, before its `except` handlers.
Returns the encoded record and the updated counter, or the raised
exception. -/
def get_output_try (parse : String → Option JObj) (n : Nat) (r : ReadResult) :
    Except PyExc (String × Nat) :=
  match r with
  | ReadResult.ioError => Except.error PyExc.otherError
  | ReadResult.noBytes => Except.ok (noDataJson, n)
  | ReadResult.line raw =>
      if !(strStartsWith raw "\x7b") then
        Except.ok (noDataJson, n)
      else
        match parse raw with
        | none => Except.error PyExc.jsonDecodeError
        | some data =>
            Except.ok (dumpsV (JVal.obj (setField data "processed" (JVal.bool false))), n + 1)

/-- The full `get_output()` with its two `except` handlers: a JSONDecodeError and
any other exception are both logged and replaced by the safe payload. -/
def get_output (parse : String → Option JObj) (n : Nat) (r : ReadResult) :
    Except PyExc (String × Nat) :=
  match get_output_try parse n r with
  | Except.ok v => Except.ok v
  | Except.error PyExc.jsonDecodeError => Except.ok (noDataJson, n)
  | Except.error PyExc.otherError => Except.ok (noDataJson, n)

/-! Section: Exclusivity Guard: `_try_acquire_file_lock` / `_release_file_lock`
(source_arduino.py 44-75)

The file-system state records, per path, which process currently holds
an flock on the file (`flock`) and the file content (`content`, `none`
when the file does not exist).  `flock(LOCK_EX | LOCK_NB)` never blocks:
it either succeeds at once or raises BlockingIOError. -/

/-- File-system and flock state shared between processes. -/
structure FS where
  flock : String → Option Nat
  content : String → Option String

/-- The deterministic lock-file path derived from the device path:
`f"/tmp/serial-lock-{os.path.basename(port_path)}.lock"`. -/
def lockPathFor (portPath : String) : String :=
  "/tmp/serial-lock-" ++ pyBasename portPath ++ ".lock"

/-- The open file handle on a lock file kept by the owning process
(`lock_fh`). -/
structure LockHandle where
  path : String

/-- The function `_try_acquire_file_lock(port_path)`:
`open(lock_path, "w")` (creates or truncates the file), then
`flock(LOCK_EX | LOCK_NB)`; on success writes `str(os.getpid())` and
returns the handle, on BlockingIOError closes the handle and returns
None. -/
def tryAcquireFileLock (fs : FS) (pid : Nat) (portPath : String) :
    Option LockHandle × FS :=
  let lp := lockPathFor portPath
  let fsOpened : FS := { fs with content := fun q => if q = lp then some "" else fs.content q }
  match fsOpened.flock lp with
  | some _ => (none, fsOpened)
  | none =>
      let fsLocked : FS :=
        { flock := fun q => if q = lp then some pid else fsOpened.flock q,
          content := fun q => if q = lp then some (toString pid) else fsOpened.content q }
      (some { path := lp }, fsLocked)

/-- The function `_release_file_lock(fh)`: a no-op on None;
otherwise `flock(LOCK_UN)` and `fh.close()`.  The lock file itself is
never unlinked, so its content is untouched. -/
def releaseFileLock (fs : FS) (h : Option LockHandle) : FS :=
  match h with
  | none => fs
  | some hdl => { fs with flock := fun q => if q = hdl.path then none else fs.flock q }

/-- No lock path is flock-held by process `pid`. -/
def noLockHeldBy (fs : FS) (pid : Nat) : Prop :=
  ∀ lp, fs.flock lp ≠ some pid

/-- Process `pid` flock-holds at most one lock path. -/
def atMostOneLockBy (fs : FS) (pid : Nat) : Prop :=
  ∀ l1 l2, fs.flock l1 = some pid → fs.flock l2 = some pid → l1 = l2

/-! Section: Candidate Enumerator: `_list_candidate_ports`
(source_arduino.py 77-91) -/

/-- One OS enumeration snapshot: the `p.device` values reported by
`serial.tools.list_ports.comports()` (an absent/None device is the
empty string, which the comprehension's truthiness test drops),
`os.path.exists`, and the resolved identity of each path (the target
of identity links; not consulted by the code, only by the spec). -/
structure Snapshot where
  comports : List String
  pathExists : String → Bool
  resolve : String → String

/-- The comprehension filter:
`p.device and ("/ttyACM" in p.device or "/ttyUSB" in p.device)`. -/
def isCandidateDevice (d : String) : Bool :=
  d != "" && (strContains d "/ttyACM" || strContains d "/ttyUSB")

/-- The sort order induced by `key=lambda x: ("/ttyACM" not in x, x)`:
lexicographic on the pair, with False before True. -/
def acmFirstLe (x y : String) : Prop :=
  (strContains x "/ttyACM" = strContains y "/ttyACM" ∧ x ≤ y) ∨
  (strContains x "/ttyACM" = true ∧ strContains y "/ttyACM" = false)

instance : DecidableRel acmFirstLe := fun x y => by
  unfold acmFirstLe
  infer_instance

/-- The filtered detected devices, before sorting. -/
def detectedPorts (snap : Snapshot) : List String :=
  snap.comports.filter isCandidateDevice

/-- The sort `sorted(detected, key=lambda x: ("/ttyACM" not in x, x))` — Python's
sort is stable, and `acmFirstLe` is total and antisymmetric, so the
sorted list is unique; insertion sort computes it. -/
def sortedDetected (snap : Snapshot) : List String :=
  List.insertionSort acmFirstLe (detectedPorts snap)

/-- The fixed fallback list `common`. -/
def commonPorts : List String :=
  ["/dev/ttyACM0", "/dev/ttyACM1", "/dev/ttyUSB0", "/dev/ttyUSB1"]

/-- The appending loop:
`for c in common: if c not in detected and os.path.exists(c): detected.append(c)` —
membership is string equality against the growing list. -/
def appendCommon (pathExists : String → Bool) (acc : List String) :
    List String → List String
  | [] => acc
  | c :: cs =>
      if c ∉ acc ∧ pathExists c = true then
        appendCommon pathExists (acc ++ [c]) cs
      else
        appendCommon pathExists acc cs

/-- The function `_list_candidate_ports()`. -/
def listCandidatePorts (snap : Snapshot) : List String :=
  appendCommon snap.pathExists (sortedDetected snap) commonPorts

/-! Section: Acquisition: `auto_detect_port` (source_arduino.py 126-176)
and `setup` (source_arduino.py 178-218)

The serial-open call and the probe are abstracted per-port by an
environment: `openOk p` is whether `_open_serial_with_exclusive(p, ...)`
returns (True) or raises (False — SerialException and any other
exception take the same release-and-continue branch), and `probeOut p`
is the outcome of `_probe_for_valid_json`: it raised, returned False,
or returned True. -/

/-- Outcome of a `_probe_for_valid_json` call on an opened port. -/
inductive ProbeOut where
  | perr : ProbeOut
  | preject : ProbeOut
  | paccept : ProbeOut
deriving DecidableEq

/-- Per-port environment behavior for open and probe. -/
structure AConfig where
  openOk : String → Bool
  probeOut : String → ProbeOut

/-- An observation point inside `auto_detect_port`: the file-system
state, the local `lock_fh` (as the lock path it holds, None when no
handle is held), and the local `connection` (as the open port, None
when no serial handle is open). -/
structure TState where
  fs : FS
  lockVar : Option String
  connVar : Option String

/-- The `auto_detect_port` candidate loop, instrumented with the list of
observation points it passes through (after each acquire, open, and
release).  Returns the trace, the accepted port (None when the loop
exhausts and `RuntimeError` is raised), and the final file-system
state. -/
def autoDetectTrace (cfg : AConfig) (pid : Nat) :
    List String → FS → List TState × (Option String × FS)
  | [], fs => ([], (none, fs))
  | p :: rest, fs =>
      match tryAcquireFileLock fs pid p with
      | (none, fs1) =>
          -- lock busy: skip to the next candidate
          let out := autoDetectTrace cfg pid rest fs1
          (⟨fs1, none, none⟩ :: out.1, out.2)
      | (some hdl, fs1) =>
          if cfg.openOk p then
            match cfg.probeOut p with
            | ProbeOut.paccept =>
                -- keep the lock in _port_lock_fh and return the connection
                ([⟨fs1, some hdl.path, none⟩, ⟨fs1, some hdl.path, some p⟩],
                 (some p, fs1))
            | _ =>
                -- probe raised or returned False: close the connection,
                -- release the lock, try the next candidate
                let fs2 := releaseFileLock fs1 (some hdl)
                let out := autoDetectTrace cfg pid rest fs2
                (⟨fs1, some hdl.path, none⟩ :: ⟨fs1, some hdl.path, some p⟩ ::
                   ⟨fs2, none, none⟩ :: out.1, out.2)
          else
            -- open raised: release the lock, try the next candidate
            let fs2 := releaseFileLock fs1 (some hdl)
            let out := autoDetectTrace cfg pid rest fs2
            (⟨fs1, some hdl.path, none⟩ :: ⟨fs2, none, none⟩ :: out.1, out.2)

/-- Result of `setup()`: the connected port, or a raised exception. -/
inductive SetupOut where
  | ok : String → SetupOut
  | err : SetupOut
deriving DecidableEq

/-- The auto-detection arm of `setup` (`ser = auto_detect_port()`;
a `RuntimeError` is logged and re-raised). -/
def setupAuto (cfg : AConfig) (pid : Nat) (ports : List String) (fs : FS) :
    SetupOut × FS × Bool :=
  match (autoDetectTrace cfg pid ports fs).2 with
  | (some p, fsF) => (SetupOut.ok p, fsF, true)
  | (none, fsF) => (SetupOut.err, fsF, true)

/-- The function `setup()` (source_arduino.py 178-218).  `serialPortParam` is
`params.get("serial_port")`; Python truthiness makes both None and the
empty string fall through to auto-detection.  The third component
records whether `auto_detect_port` was invoked. -/
def setup (cfg : AConfig) (pid : Nat) (ports : List String) (fs : FS)
    (serialPortParam : Option String) : SetupOut × FS × Bool :=
  match serialPortParam with
  | none => setupAuto cfg pid ports fs
  | some port =>
      if port = "" then
        setupAuto cfg pid ports fs
      else
        match tryAcquireFileLock fs pid port with
        | (none, fs1) =>
            -- raise RuntimeError(f"Serial port {port} is locked ...")
            (SetupOut.err, fs1, false)
        | (some hdl, fs1) =>
            if cfg.openOk port then
              match cfg.probeOut port with
              | ProbeOut.paccept => (SetupOut.ok port, fs1, false)
              | ProbeOut.preject =>
                  -- close, release, raise RuntimeError; the surrounding
                  -- `except Exception` releases again and re-raises
                  (SetupOut.err,
                   releaseFileLock (releaseFileLock fs1 (some hdl)) (some hdl),
                   false)
              | ProbeOut.perr =>
                  -- probe raised: `except Exception` releases and re-raises
                  (SetupOut.err, releaseFileLock fs1 (some hdl), false)
            else
              -- open raised: `except Exception` releases and re-raises
              (SetupOut.err, releaseFileLock fs1 (some hdl), false)

/-! Section: Field-update lemmas for the record model -/

theorem lookupField_setField_self (data : JObj) (k : String) (v : JVal) :
    lookupField (setField data k v) k = some v := by
  induction data with
  | nil => simp [setField, lookupField]
  | cons kv rest ih =>
      obtain ⟨k', v'⟩ := kv
      by_cases h : k' = k
      · simp [setField, h, lookupField]
      · simp [setField, h, lookupField, ih]

theorem lookupField_setField_ne (data : JObj) (k k' : String) (v : JVal)
    (h : k' ≠ k) :
    lookupField (setField data k v) k' = lookupField data k' := by
  induction data with
  | nil => simp [setField, lookupField, Ne.symm h]
  | cons kv rest ih =>
      obtain ⟨a, b⟩ := kv
      by_cases ha : a = k
      · subst ha
        simp [setField, lookupField, Ne.symm h]
      · simp [setField, ha, lookupField, ih]

theorem length_setField_of_new (data : JObj) (k : String) (v : JVal)
    (h : lookupField data k = none) :
    (setField data k v).length = data.length + 1 := by
  induction data with
  | nil => simp [setField]
  | cons kv rest ih =>
      obtain ⟨a, b⟩ := kv
      by_cases ha : a = k
      · simp [lookupField, ha] at h
      · simp [lookupField, ha] at h
        simp [setField, ha, ih h]

/-! Section: Claims about the Record Reader -/

/-- C10: `get_output` is total at its public interface: for every
behavior of the underlying serial read — no bytes, a line that does not
start with the object marker (which includes everything invalid UTF-8
bytes can decode to), a line whose parse fails, a line whose parse
succeeds, or a read that raises — the call returns normally
(`Except.ok`) with the encoding of an object whose processed field is
false, and never propagates an exception. -/
theorem get_output_total (parse : String → Option JObj) (n : Nat) (r : ReadResult) :
    ∃ data n', get_output parse n r = Except.ok (dumpsV (JVal.obj data), n') ∧
      lookupField data "processed" = some (JVal.bool false) := by
  cases r with
  | noBytes => exact ⟨[("processed", JVal.bool false)], n, rfl, rfl⟩
  | ioError => exact ⟨[("processed", JVal.bool false)], n, rfl, rfl⟩
  | line raw =>
      by_cases hb : strStartsWith raw "\x7b"
      · cases hp : parse raw with
        | none =>
            refine ⟨[("processed", JVal.bool false)], n, ?_, rfl⟩
            simp [get_output, get_output_try, hb, hp, noDataJson]
        | some data =>
            refine ⟨setField data "processed" (JVal.bool false), n + 1, ?_,
              lookupField_setField_self data "processed" (JVal.bool false)⟩
            simp [get_output, get_output_try, hb, hp]
      · refine ⟨[("processed", JVal.bool false)], n, ?_, rfl⟩
        simp [get_output, get_output_try, hb, noDataJson]

/-- A `json.loads` oracle that fails on every line. -/
def parse0 : String → Option JObj := fun _ => none

/-- C1 counterexample: when the per-line serial read raises an I/O
exception, `get_output` does NOT propagate it — the call returns
normally with exactly the safe no-data payload, indistinguishable from
an empty read. -/
theorem get_output_io_exception_cex :
    get_output parse0 0 ReadResult.ioError = Except.ok (noDataJson, 0) ∧
    get_output parse0 0 ReadResult.ioError = get_output parse0 0 ReadResult.noBytes :=
  ⟨rfl, rfl⟩

/-- C1 amended: a lower-level I/O exception raised by `ser.readline()`
is caught by the catch-all `except Exception` handler inside
`get_output` and converted into the safe no-data result; it is never
propagated to the caller, so no Connected-to-Disconnected transition is
triggered by it. -/
theorem get_output_io_exception_to_noData (parse : String → Option JObj) (n : Nat) :
    get_output parse n ReadResult.ioError = Except.ok (noDataJson, n) ∧
    get_output parse n ReadResult.ioError = get_output parse n ReadResult.noBytes :=
  ⟨rfl, rfl⟩

/-- A `json.loads` oracle for the line whose object already carries a
processed field set to true. -/
def parseProcTrue : String → Option JObj := fun s =>
  if s = "\x7b\"processed\": true\x7d" then some [("processed", JVal.bool true)]
  else none

/-- C8 counterexample: on the valid line whose source object already
contains the field "processed" (with value true), the returned record
carries processed = false — the original value of that field is not
preserved — and no field at all was added (the lengths agree), so the
record is not the source object plus exactly one added field. -/
theorem record_roundtrip_cex :
    lookupField [("processed", JVal.bool true)] "processed" = some (JVal.bool true) ∧
    get_output parseProcTrue 0 (ReadResult.line "\x7b\"processed\": true\x7d")
      = Except.ok (dumpsV (JVal.obj [("processed", JVal.bool false)]), 1) ∧
    (setField [("processed", JVal.bool true)] "processed" (JVal.bool false)).length
      = ([("processed", JVal.bool true)] : JObj).length :=
  ⟨rfl, rfl, rfl⟩

/-- C8 amended: for every line that parses as a valid JSON object, the
returned Record is the source object with the processed field set to
false: every field other than "processed" keeps its original value, the
processed field of the record is false (overwriting any source value),
and when the source object had no "processed" field exactly one field
is added. -/
theorem record_roundtrip (parse : String → Option JObj) (n : Nat) (raw : String)
    (data : JObj) (hb : strStartsWith raw "\x7b" = true)
    (hp : parse raw = some data) :
    get_output parse n (ReadResult.line raw)
      = Except.ok (dumpsV (JVal.obj (setField data "processed" (JVal.bool false))), n + 1) ∧
    lookupField (setField data "processed" (JVal.bool false)) "processed"
      = some (JVal.bool false) ∧
    (∀ k v, k ≠ "processed" → lookupField data k = some v →
      lookupField (setField data "processed" (JVal.bool false)) k = some v) ∧
    (lookupField data "processed" = none →
      (setField data "processed" (JVal.bool false)).length = data.length + 1) := by
  refine ⟨?_, lookupField_setField_self data "processed" (JVal.bool false), ?_, ?_⟩
  · simp [get_output, get_output_try, hb, hp]
  · intro k v hk hv
    rw [lookupField_setField_ne data "processed" k (JVal.bool false) hk]
    exact hv
  · intro hnone
    exact length_setField_of_new data "processed" (JVal.bool false) hnone

/-- A `json.loads` oracle for one simple valid object line. -/
def parseAB : String → Option JObj := fun s =>
  if s = "\x7b\"a\": 1\x7d" then some [("a", JVal.num 1)] else none

/-- Witness for the amended C8 theorem on a concrete valid line. -/
theorem record_roundtrip_witness :
    (strStartsWith "\x7b\"a\": 1\x7d" "\x7b" = true) ∧
    (parseAB "\x7b\"a\": 1\x7d" = some [("a", JVal.num 1)]) ∧
    (get_output parseAB 5 (ReadResult.line "\x7b\"a\": 1\x7d")
      = Except.ok
          (dumpsV (JVal.obj (setField [("a", JVal.num 1)] "processed" (JVal.bool false))),
           5 + 1) ∧
     lookupField (setField [("a", JVal.num 1)] "processed" (JVal.bool false)) "processed"
      = some (JVal.bool false) ∧
     (∀ k v, k ≠ "processed" → lookupField [("a", JVal.num 1)] k = some v →
       lookupField (setField [("a", JVal.num 1)] "processed" (JVal.bool false)) k = some v) ∧
     (lookupField [("a", JVal.num 1)] "processed" = none →
       (setField [("a", JVal.num 1)] "processed" (JVal.bool false)).length
         = ([("a", JVal.num 1)] : JObj).length + 1)) :=
  ⟨rfl, rfl, record_roundtrip parseAB 5 "\x7b\"a\": 1\x7d" [("a", JVal.num 1)] rfl rfl⟩

/-! Section: Claims about the Line Validator -/

theorem getD_tail (stream : List (Option String)) (j : Nat) :
    stream.tail.getD j none = stream.getD (j + 1) none := by
  cases stream <;> simp [List.getD]

/-- Any read that the probe loop does not accept leads to the skip
branch: one recursive call on the tail and one more consumed read. -/
theorem probeGo_skip (jsonOk : String → Bool) (k : Nat)
    (stream : List (Option String))
    (h : acceptingLine jsonOk (stream.getD 0 none) = false) :
    probeGo jsonOk (k + 1) stream
      = ((probeGo jsonOk k stream.tail).1, (probeGo jsonOk k stream.tail).2 + 1) := by
  cases stream with
  | nil => simp [probeGo, List.getD]
  | cons x rest =>
      simp only [List.getD_cons_zero] at h
      cases x with
      | none => simp [probeGo]
      | some raw =>
          by_cases he : raw = ""
          · simp [probeGo, he]
          · by_cases hs : strStartsWith raw "\x7b"
            · have hj : jsonOk raw = false := by
                simpa [acceptingLine, he, hs] using h
              simp [probeGo, he, hs, hj]
            · simp [probeGo, he, hs]

/-- An accepting read makes the probe loop return True at once with one
consumed read. -/
theorem probeGo_accept (jsonOk : String → Bool) (k : Nat)
    (stream : List (Option String))
    (h : acceptingLine jsonOk (stream.getD 0 none) = true) :
    probeGo jsonOk (k + 1) stream = (true, 1) := by
  cases stream with
  | nil => simp [List.getD, acceptingLine] at h
  | cons x rest =>
      simp only [List.getD_cons_zero] at h
      cases x with
      | none => simp [acceptingLine] at h
      | some raw =>
          simp only [acceptingLine, Bool.and_eq_true, Bool.not_eq_true',
            decide_eq_false_iff_not] at h
          obtain ⟨⟨he, hs⟩, hj⟩ := h
          simp [probeGo, he, hs, hj]

/-- C2: first success wins.  If the reads before index i are all
non-accepting and the read at index i parses as a valid JSON object,
and i is within the probe budget, then the probe returns True having
consumed exactly i + 1 reads — the remaining budget is unused. -/
theorem probe_first_success_wins (jsonOk : String → Bool)
    (stream : List (Option String)) (i max_lines : Nat) (hi : i < max_lines)
    (hbefore : ∀ j, j < i → acceptingLine jsonOk (stream.getD j none) = false)
    (hacc : acceptingLine jsonOk (stream.getD i none) = true) :
    probeForValidJson jsonOk stream max_lines = (true, i + 1) := by
  unfold probeForValidJson
  induction i generalizing stream max_lines with
  | zero =>
      obtain ⟨k, rfl⟩ : ∃ k, max_lines = k + 1 :=
        ⟨max_lines - 1, (Nat.succ_pred_eq_of_pos hi).symm⟩
      exact probeGo_accept jsonOk k stream hacc
  | succ i ih =>
      obtain ⟨k, rfl⟩ : ∃ k, max_lines = k + 1 :=
        ⟨max_lines - 1, (Nat.succ_pred_eq_of_pos (Nat.lt_of_le_of_lt (Nat.zero_le _) hi)).symm⟩
      rw [probeGo_skip jsonOk k stream (hbefore 0 (Nat.succ_pos i))]
      have hrec := ih stream.tail k (Nat.lt_of_succ_lt_succ hi)
        (fun j hj => by rw [getD_tail]; exact hbefore (j + 1) (Nat.succ_lt_succ hj))
        (by rw [getD_tail]; exact hacc)
      rw [hrec]

/-- The `json.loads` oracle used by the concrete probe scenarios. -/
def jsonOkW : String → Bool := fun s => s == "\x7b\"a\": 1\x7d"

/-- A stream with 3 garbage lines followed by one valid JSON object
line. -/
def streamW : List (Option String) :=
  [some "boot noise", some "garbage", some "###", some "\x7b\"a\": 1\x7d"]

/-- Witness for C2: on 3 garbage lines followed by a valid JSON object
line, probing with max_lines = 5 accepts after exactly 4 reads. -/
theorem probe_first_success_wins_witness :
    (3 < 5) ∧
    (∀ j, j < 3 → acceptingLine jsonOkW (streamW.getD j none) = false) ∧
    (acceptingLine jsonOkW (streamW.getD 3 none) = true) ∧
    probeForValidJson jsonOkW streamW 5 = (true, 3 + 1) :=
  ⟨by decide, by decide, by decide,
   probe_first_success_wins jsonOkW streamW 3 5 (by decide) (by decide) (by decide)⟩

/-- C5 counterexample: the probe's result carries no rejection reason.
A stream that yields nothing at all and a stream of only garbage lines
exhaust the same budget and produce the very same result
(False, budget): rejected-for-no-data and rejected-for-malformed-JSON
are not distinguishable in `_probe_for_valid_json`'s Bool result. -/
theorem probe_rejections_indistinguishable_cex :
    probeForValidJson jsonOkW [] 3 = (false, 3) ∧
    probeForValidJson jsonOkW [some "junk1", some "junk2", some "\x7bbad"] 3 = (false, 3) ∧
    probeForValidJson jsonOkW [] 3
      = probeForValidJson jsonOkW [some "junk1", some "junk2", some "\x7bbad"] 3 :=
  ⟨rfl, rfl, rfl⟩

/-- C5 amended: when the probe exhausts max_lines without any read
parsing as a valid JSON object it returns False having consumed the
whole budget — the same single Boolean whether the stream produced no
candidate line at all or only malformed ones; the two rejection cases
are not distinguished. -/
theorem probe_exhaustion_false (jsonOk : String → Bool)
    (stream : List (Option String)) (max_lines : Nat)
    (h : ∀ j, j < max_lines → acceptingLine jsonOk (stream.getD j none) = false) :
    probeForValidJson jsonOk stream max_lines = (false, max_lines) := by
  unfold probeForValidJson
  induction max_lines generalizing stream with
  | zero => rfl
  | succ k ih =>
      rw [probeGo_skip jsonOk k stream (h 0 (Nat.succ_pos k))]
      have hrec := ih stream.tail
        (fun j hj => by rw [getD_tail]; exact h (j + 1) (Nat.succ_lt_succ hj))
      rw [hrec]

/-- Witness for the amended C5 theorem: a stream of one garbage line,
one empty read, and one malformed candidate line exhausts a budget of 3
and returns (False, 3). -/
theorem probe_exhaustion_false_witness :
    (∀ j, j < 3 →
      acceptingLine jsonOkW ([some "junk", none, some "\x7balmost"].getD j none) = false) ∧
    probeForValidJson jsonOkW [some "junk", none, some "\x7balmost"] 3 = (false, 3) :=
  ⟨by decide, probe_exhaustion_false jsonOkW [some "junk", none, some "\x7balmost"] 3 (by decide)⟩

/-! Section: Claims about the Exclusivity Guard -/

/-- C3: if the flock for a device path is currently held by some owner,
`_try_acquire_file_lock` by any process returns the busy outcome (a
None handle) and leaves the holder unchanged — the caller is not
granted ownership.  The call is non-blocking by LOCK_NB semantics: it
is a total function of the pre-state. -/
theorem acquire_busy_when_held (fs : FS) (pidA pidB : Nat) (portPath : String)
    (hheld : fs.flock (lockPathFor portPath) = some pidA) :
    (tryAcquireFileLock fs pidB portPath).1 = none ∧
    ((tryAcquireFileLock fs pidB portPath).2).flock (lockPathFor portPath)
      = some pidA := by
  unfold tryAcquireFileLock
  simp [hheld]

/-- A state in which owner 111 already holds the flock for
/dev/ttyACM0's lock file. -/
def fsHeldByA : FS :=
  { flock := fun q => if q = lockPathFor "/dev/ttyACM0" then some 111 else none,
    content := fun q => if q = lockPathFor "/dev/ttyACM0" then some "111" else none }

/-- Witness for C3: process 222 asking for /dev/ttyACM0 while 111 holds
it gets None and 111 keeps the lock. -/
theorem acquire_busy_when_held_witness :
    (fsHeldByA.flock (lockPathFor "/dev/ttyACM0") = some 111) ∧
    ((tryAcquireFileLock fsHeldByA 222 "/dev/ttyACM0").1 = none ∧
     ((tryAcquireFileLock fsHeldByA 222 "/dev/ttyACM0").2).flock
        (lockPathFor "/dev/ttyACM0") = some 111) :=
  ⟨rfl, acquire_busy_when_held fsHeldByA 111 222 "/dev/ttyACM0" rfl⟩

/-- The empty file system: no file exists, no flock is held. -/
def fs0 : FS := { flock := fun _ => none, content := fun _ => none }

/-- C6 counterexample: after process 42 acquires the lock for
/dev/ttyACM0 and then cleanly releases it, the lock file still exists
with content "42" — `_release_file_lock` unlocks and closes the handle
but never removes the file. -/
theorem release_keeps_lock_file_cex :
    ((tryAcquireFileLock fs0 42 "/dev/ttyACM0").1
      = some { path := lockPathFor "/dev/ttyACM0" }) ∧
    ((tryAcquireFileLock fs0 42 "/dev/ttyACM0").2).content (lockPathFor "/dev/ttyACM0")
      = some (toString 42) ∧
    (releaseFileLock (tryAcquireFileLock fs0 42 "/dev/ttyACM0").2
        (tryAcquireFileLock fs0 42 "/dev/ttyACM0").1).flock (lockPathFor "/dev/ttyACM0")
      = none ∧
    (releaseFileLock (tryAcquireFileLock fs0 42 "/dev/ttyACM0").2
        (tryAcquireFileLock fs0 42 "/dev/ttyACM0").1).content (lockPathFor "/dev/ttyACM0")
      = some (toString 42) :=
  ⟨rfl, rfl, rfl, rfl⟩

/-- C6 amended: while the Lock is held the lock file's content is the
owning process identifier; a clean release frees the flock and closes
the handle but does NOT remove the lock file, whose content stays the
owner's pid. -/
theorem lock_content_pid_release_keeps_file (fs : FS) (pid : Nat) (portPath : String)
    (hfree : fs.flock (lockPathFor portPath) = none) :
    (tryAcquireFileLock fs pid portPath).1 = some { path := lockPathFor portPath } ∧
    ((tryAcquireFileLock fs pid portPath).2).flock (lockPathFor portPath) = some pid ∧
    ((tryAcquireFileLock fs pid portPath).2).content (lockPathFor portPath)
      = some (toString pid) ∧
    (releaseFileLock (tryAcquireFileLock fs pid portPath).2
        (tryAcquireFileLock fs pid portPath).1).flock (lockPathFor portPath) = none ∧
    (releaseFileLock (tryAcquireFileLock fs pid portPath).2
        (tryAcquireFileLock fs pid portPath).1).content (lockPathFor portPath)
      = some (toString pid) := by
  unfold tryAcquireFileLock releaseFileLock
  simp [hfree]

/-- Witness for the amended C6 theorem at process 7 and /dev/ttyUSB0 on
the empty file system. -/
theorem lock_content_pid_release_keeps_file_witness :
    (fs0.flock (lockPathFor "/dev/ttyUSB0") = none) ∧
    ((tryAcquireFileLock fs0 7 "/dev/ttyUSB0").1
        = some { path := lockPathFor "/dev/ttyUSB0" } ∧
     ((tryAcquireFileLock fs0 7 "/dev/ttyUSB0").2).flock (lockPathFor "/dev/ttyUSB0")
        = some 7 ∧
     ((tryAcquireFileLock fs0 7 "/dev/ttyUSB0").2).content (lockPathFor "/dev/ttyUSB0")
        = some (toString 7) ∧
     (releaseFileLock (tryAcquireFileLock fs0 7 "/dev/ttyUSB0").2
        (tryAcquireFileLock fs0 7 "/dev/ttyUSB0").1).flock (lockPathFor "/dev/ttyUSB0")
        = none ∧
     (releaseFileLock (tryAcquireFileLock fs0 7 "/dev/ttyUSB0").2
        (tryAcquireFileLock fs0 7 "/dev/ttyUSB0").1).content (lockPathFor "/dev/ttyUSB0")
        = some (toString 7)) :=
  ⟨rfl, lock_content_pid_release_keeps_file fs0 7 "/dev/ttyUSB0" rfl⟩

/-! Section: Claims about the Acquisition Controller -/

theorem tryAcquire_fst_busy (fs : FS) (pid o : Nat) (p : String)
    (h : fs.flock (lockPathFor p) = some o) :
    (tryAcquireFileLock fs pid p).1 = none := by
  unfold tryAcquireFileLock
  simp [h]

theorem tryAcquire_snd_flock_busy (fs : FS) (pid o : Nat) (p : String)
    (h : fs.flock (lockPathFor p) = some o) :
    ((tryAcquireFileLock fs pid p).2).flock = fs.flock := by
  unfold tryAcquireFileLock
  simp [h]

theorem tryAcquire_fst_free (fs : FS) (pid : Nat) (p : String)
    (h : fs.flock (lockPathFor p) = none) :
    (tryAcquireFileLock fs pid p).1 = some { path := lockPathFor p } := by
  unfold tryAcquireFileLock
  simp [h]

theorem tryAcquire_snd_flock_free (fs : FS) (pid : Nat) (p : String)
    (h : fs.flock (lockPathFor p) = none) :
    ((tryAcquireFileLock fs pid p).2).flock
      = fun q => if q = lockPathFor p then some pid else fs.flock q := by
  unfold tryAcquireFileLock
  simp [h]

theorem release_flock_eq (fs : FS) (lp q : String) :
    (releaseFileLock fs (some { path := lp })).flock q
      = if q = lp then none else fs.flock q := rfl

theorem atMostOne_of_noneHeld (fs : FS) (pid : Nat) (h : noLockHeldBy fs pid) :
    atMostOneLockBy fs pid :=
  fun l1 _ h1 _ => absurd h1 (h l1)

theorem release_restores_none (fs1 : FS) (lp : String) (pid : Nat)
    (huniq : ∀ l, fs1.flock l = some pid → l = lp) :
    noLockHeldBy (releaseFileLock fs1 (some { path := lp })) pid := by
  intro q hq
  rw [release_flock_eq] at hq
  by_cases hql : q = lp
  · simp [hql] at hq
  · rw [if_neg hql] at hq
    exact hql (huniq q hq)

/-- The per-observation-point property of C4: the process holds at most
one flock, and an open serial connection implies that its lock is held
and is the one in the local lock_fh. -/
def resourceInvariant (pid : Nat) (s : TState) : Prop :=
  atMostOneLockBy s.fs pid ∧
  ∀ c, s.connVar = some c →
    s.fs.flock (lockPathFor c) = some pid ∧ s.lockVar = some (lockPathFor c)

/-- C4: starting with no lock held by the process, every observation
point of the `auto_detect_port` loop satisfies the resource invariant
(at most one lock held; a connection only while its lock is held); on
every non-accepted branch the candidate's lock is released and its
connection closed before the next candidate, so that on success exactly
the accepted candidate's lock remains held, and on exhaustion no lock
is held at all. -/
theorem autoDetect_lock_discipline (cfg : AConfig) (pid : Nat) (ports : List String)
    (fs : FS) (h0 : noLockHeldBy fs pid) :
    (∀ s ∈ (autoDetectTrace cfg pid ports fs).1, resourceInvariant pid s) ∧
    (∀ p, (autoDetectTrace cfg pid ports fs).2.1 = some p →
        ((autoDetectTrace cfg pid ports fs).2.2).flock (lockPathFor p) = some pid ∧
        ∀ lp, ((autoDetectTrace cfg pid ports fs).2.2).flock lp = some pid →
          lp = lockPathFor p) ∧
    ((autoDetectTrace cfg pid ports fs).2.1 = none →
        noLockHeldBy ((autoDetectTrace cfg pid ports fs).2.2) pid) := by
  induction ports generalizing fs with
  | nil =>
      refine ⟨?_, ?_, ?_⟩
      · intro s hs
        simp [autoDetectTrace] at hs
      · intro p hp
        simp [autoDetectTrace] at hp
      · intro _
        simpa [autoDetectTrace] using h0
  | cons p rest ih =>
      rcases hacq : tryAcquireFileLock fs pid p with ⟨ho, fs1⟩
      cases hflock : fs.flock (lockPathFor p) with
      | some o =>
          have hfst := tryAcquire_fst_busy fs pid o p hflock
          have hsnd := tryAcquire_snd_flock_busy fs pid o p hflock
          rw [hacq] at hfst hsnd
          simp only at hfst hsnd
          subst hfst
          have h0' : noLockHeldBy fs1 pid := by
            intro lp
            rw [hsnd]
            exact h0 lp
          obtain ⟨ihTr, ihSome, ihNone⟩ := ih fs1 h0'
          simp only [autoDetectTrace, hacq]
          refine ⟨?_, ihSome, ihNone⟩
          intro s hs
          rw [List.mem_cons] at hs
          rcases hs with rfl | hs
          · exact ⟨atMostOne_of_noneHeld _ pid h0', fun c hc => by cases hc⟩
          · exact ihTr s hs
      | none =>
          have hfst := tryAcquire_fst_free fs pid p hflock
          have hflk := tryAcquire_snd_flock_free fs pid p hflock
          rw [hacq] at hfst hflk
          simp only at hfst hflk
          subst hfst
          have hold : fs1.flock (lockPathFor p) = some pid := by
            simp [hflk]
          have huniq : ∀ l, fs1.flock l = some pid → l = lockPathFor p := by
            intro l hl
            simp only [hflk] at hl
            by_cases hlp : l = lockPathFor p
            · exact hlp
            · rw [if_neg hlp] at hl
              exact absurd hl (h0 l)
          have amo1 : atMostOneLockBy fs1 pid := by
            intro l1 l2 h1 h2
            rw [huniq l1 h1, huniq l2 h2]
          have inv1 : resourceInvariant pid ⟨fs1, some (lockPathFor p), none⟩ :=
            ⟨amo1, fun c hc => by cases hc⟩
          have inv2 : resourceInvariant pid ⟨fs1, some (lockPathFor p), some p⟩ := by
            refine ⟨amo1, fun c hc => ?_⟩
            cases hc
            exact ⟨hold, rfl⟩
          have hrel : noLockHeldBy
              (releaseFileLock fs1 (some { path := lockPathFor p })) pid :=
            release_restores_none fs1 _ pid huniq
          cases hopen : cfg.openOk p with
          | true =>
              cases hpo : cfg.probeOut p with
              | paccept =>
                  simp only [autoDetectTrace, hacq, hopen, hpo, eq_self_iff_true,
                    if_true]
                  refine ⟨?_, ?_, ?_⟩
                  · intro s hs
                    rw [List.mem_cons] at hs
                    rcases hs with rfl | hs
                    · exact inv1
                    · rw [List.mem_singleton] at hs
                      subst hs
                      exact inv2
                  · intro q hq
                    injection hq with hq2
                    subst hq2
                    exact ⟨hold, huniq⟩
                  · intro hq
                    simp at hq
              | perr =>
                  obtain ⟨ihTr, ihSome, ihNone⟩ := ih _ hrel
                  simp only [autoDetectTrace, hacq, hopen, hpo, eq_self_iff_true,
                    if_true]
                  refine ⟨?_, ihSome, ihNone⟩
                  intro s hs
                  rw [List.mem_cons] at hs
                  rcases hs with rfl | hs
                  · exact inv1
                  · rw [List.mem_cons] at hs
                    rcases hs with rfl | hs
                    · exact inv2
                    · rw [List.mem_cons] at hs
                      rcases hs with rfl | hs
                      · exact ⟨atMostOne_of_noneHeld _ pid hrel,
                          fun c hc => by cases hc⟩
                      · exact ihTr s hs
              | preject =>
                  obtain ⟨ihTr, ihSome, ihNone⟩ := ih _ hrel
                  simp only [autoDetectTrace, hacq, hopen, hpo, eq_self_iff_true,
                    if_true]
                  refine ⟨?_, ihSome, ihNone⟩
                  intro s hs
                  rw [List.mem_cons] at hs
                  rcases hs with rfl | hs
                  · exact inv1
                  · rw [List.mem_cons] at hs
                    rcases hs with rfl | hs
                    · exact inv2
                    · rw [List.mem_cons] at hs
                      rcases hs with rfl | hs
                      · exact ⟨atMostOne_of_noneHeld _ pid hrel,
                          fun c hc => by cases hc⟩
                      · exact ihTr s hs
          | false =>
              obtain ⟨ihTr, ihSome, ihNone⟩ := ih _ hrel
              simp only [autoDetectTrace, hacq, hopen, Bool.false_eq_true,
                if_false]
              refine ⟨?_, ihSome, ihNone⟩
              intro s hs
              rw [List.mem_cons] at hs
              rcases hs with rfl | hs
              · exact inv1
              · rw [List.mem_cons] at hs
                rcases hs with rfl | hs
                · exact ⟨atMostOne_of_noneHeld _ pid hrel, fun c hc => by cases hc⟩
                · exact ihTr s hs

/-- A concrete acquisition environment: /dev/ttyACM0 fails the probe,
/dev/ttyUSB0 fails to open, /dev/ttyACM1 opens and validates. -/
def cfgW : AConfig :=
  { openOk := fun p => p != "/dev/ttyUSB0",
    probeOut := fun p => if p = "/dev/ttyACM1" then ProbeOut.paccept
      else ProbeOut.preject }

/-- The candidate list used by the concrete acquisition scenarios. -/
def portsW : List String := ["/dev/ttyACM0", "/dev/ttyUSB0", "/dev/ttyACM1"]

/-- Witness for C4 on a concrete three-candidate scenario starting from
the empty file system. -/
theorem autoDetect_lock_discipline_witness :
    noLockHeldBy fs0 1234 ∧
    ((∀ s ∈ (autoDetectTrace cfgW 1234 portsW fs0).1, resourceInvariant 1234 s) ∧
     (∀ p, (autoDetectTrace cfgW 1234 portsW fs0).2.1 = some p →
        ((autoDetectTrace cfgW 1234 portsW fs0).2.2).flock (lockPathFor p) = some 1234 ∧
        ∀ lp, ((autoDetectTrace cfgW 1234 portsW fs0).2.2).flock lp = some 1234 →
          lp = lockPathFor p) ∧
     ((autoDetectTrace cfgW 1234 portsW fs0).2.1 = none →
        noLockHeldBy ((autoDetectTrace cfgW 1234 portsW fs0).2.2) 1234)) :=
  ⟨fun _ h => Option.noConfusion h,
   autoDetect_lock_discipline cfgW 1234 portsW fs0 (fun _ h => Option.noConfusion h)⟩

/-- C9: when the configuration carries a non-empty explicit device path,
`setup` never invokes `auto_detect_port` (no fallback to candidate
enumeration); any failure — the path's lock already held, the open
raising, the probe raising, or validation rejecting — makes `setup`
raise a terminal error, and on such an error no lock stays held by the
process. -/
theorem setup_explicit_no_fallback (cfg : AConfig) (pid : Nat) (ports : List String)
    (fs : FS) (port : String) (hport : port ≠ "") (h0 : noLockHeldBy fs pid) :
    (setup cfg pid ports fs (some port)).2.2 = false ∧
    (((fs.flock (lockPathFor port)).isSome ∨ cfg.openOk port = false ∨
        cfg.probeOut port ≠ ProbeOut.paccept) →
      (setup cfg pid ports fs (some port)).1 = SetupOut.err) ∧
    ((setup cfg pid ports fs (some port)).1 = SetupOut.err →
      noLockHeldBy (setup cfg pid ports fs (some port)).2.1 pid) := by
  rcases hacq : tryAcquireFileLock fs pid port with ⟨ho, fs1⟩
  cases hflock : fs.flock (lockPathFor port) with
  | some o =>
      have hfst := tryAcquire_fst_busy fs pid o port hflock
      have hsnd := tryAcquire_snd_flock_busy fs pid o port hflock
      rw [hacq] at hfst hsnd
      simp only at hfst hsnd
      subst hfst
      have hsetup : setup cfg pid ports fs (some port) = (SetupOut.err, fs1, false) := by
        simp [setup, hport, hacq]
      rw [hsetup]
      refine ⟨rfl, fun _ => rfl, fun _ => ?_⟩
      intro lp
      rw [hsnd]
      exact h0 lp
  | none =>
      have hfst := tryAcquire_fst_free fs pid port hflock
      have hflk := tryAcquire_snd_flock_free fs pid port hflock
      rw [hacq] at hfst hflk
      simp only at hfst hflk
      subst hfst
      have huniq : ∀ l, fs1.flock l = some pid → l = lockPathFor port := by
        intro l hl
        simp only [hflk] at hl
        by_cases hlp : l = lockPathFor port
        · exact hlp
        · rw [if_neg hlp] at hl
          exact absurd hl (h0 l)
      have hrel1 : noLockHeldBy
          (releaseFileLock fs1 (some { path := lockPathFor port })) pid :=
        release_restores_none fs1 _ pid huniq
      have hrel2 : noLockHeldBy
          (releaseFileLock (releaseFileLock fs1 (some { path := lockPathFor port }))
            (some { path := lockPathFor port })) pid := by
        intro lp hlp
        rw [release_flock_eq] at hlp
        by_cases hq : lp = lockPathFor port
        · simp [hq] at hlp
        · rw [if_neg hq] at hlp
          exact hrel1 lp hlp
      cases hopen : cfg.openOk port with
      | true =>
          cases hpo : cfg.probeOut port with
          | paccept =>
              have hsetup : setup cfg pid ports fs (some port)
                  = (SetupOut.ok port, fs1, false) := by
                simp [setup, hport, hacq, hopen, hpo]
              rw [hsetup]
              refine ⟨rfl, fun hbad => ?_, fun herr => ?_⟩
              · rcases hbad with hbad | hbad | hbad
                · simp at hbad
                · simp at hbad
                · exact absurd rfl hbad
              · cases herr
          | perr =>
              have hsetup : setup cfg pid ports fs (some port)
                  = (SetupOut.err,
                     releaseFileLock fs1 (some { path := lockPathFor port }),
                     false) := by
                simp [setup, hport, hacq, hopen, hpo]
              rw [hsetup]
              exact ⟨rfl, fun _ => rfl, fun _ => hrel1⟩
          | preject =>
              have hsetup : setup cfg pid ports fs (some port)
                  = (SetupOut.err,
                     releaseFileLock
                       (releaseFileLock fs1 (some { path := lockPathFor port }))
                       (some { path := lockPathFor port }),
                     false) := by
                simp [setup, hport, hacq, hopen, hpo]
              rw [hsetup]
              exact ⟨rfl, fun _ => rfl, fun _ => hrel2⟩
      | false =>
          have hsetup : setup cfg pid ports fs (some port)
              = (SetupOut.err,
                 releaseFileLock fs1 (some { path := lockPathFor port }),
                 false) := by
            simp [setup, hport, hacq, hopen]
          rw [hsetup]
          exact ⟨rfl, fun _ => rfl, fun _ => hrel1⟩

/-- A configuration whose probe rejects every port. -/
def cfgRejW : AConfig :=
  { openOk := fun _ => true, probeOut := fun _ => ProbeOut.preject }

/-- Witness for C9: an explicit /dev/ttyACM0 whose probe rejects — setup
fails, never calls auto-detection, and holds no lock afterwards. -/
theorem setup_explicit_no_fallback_witness :
    ("/dev/ttyACM0" : String) ≠ "" ∧ noLockHeldBy fs0 99 ∧
    ((setup cfgRejW 99 portsW fs0 (some "/dev/ttyACM0")).2.2 = false ∧
     (((fs0.flock (lockPathFor "/dev/ttyACM0")).isSome ∨
         cfgRejW.openOk "/dev/ttyACM0" = false ∨
         cfgRejW.probeOut "/dev/ttyACM0" ≠ ProbeOut.paccept) →
       (setup cfgRejW 99 portsW fs0 (some "/dev/ttyACM0")).1 = SetupOut.err) ∧
     ((setup cfgRejW 99 portsW fs0 (some "/dev/ttyACM0")).1 = SetupOut.err →
       noLockHeldBy (setup cfgRejW 99 portsW fs0 (some "/dev/ttyACM0")).2.1 99)) :=
  ⟨by decide, fun _ h => Option.noConfusion h,
   setup_explicit_no_fallback cfgRejW 99 portsW fs0 "/dev/ttyACM0" (by decide)
     (fun _ h => Option.noConfusion h)⟩

/-! Section: Claims about the Candidate Enumerator -/

/-- A snapshot in which the enumeration reports an identity link
(a symlink whose name matches the ACM pattern) while the plain node
/dev/ttyACM0 it resolves to also exists on the filesystem. -/
def snapCex : Snapshot :=
  { comports := ["/dev/links/ttyACM-A"],
    pathExists := fun p => p == "/dev/ttyACM0",
    resolve := fun p => if p = "/dev/links/ttyACM-A" then "/dev/ttyACM0" else p }

/-- C7 counterexample: deduplication in `_list_candidate_ports` is by
string equality only (`c not in detected`).  Two entries from different
sources resolving to the same underlying device — the detected identity
link and the fallback /dev/ttyACM0 — both survive, so the path appears
twice by resolved identity, not exactly once. -/
theorem enumerate_identity_dup_cex :
    snapCex.resolve "/dev/links/ttyACM-A" = snapCex.resolve "/dev/ttyACM0" ∧
    listCandidatePorts snapCex = ["/dev/links/ttyACM-A", "/dev/ttyACM0"] ∧
    ((listCandidatePorts snapCex).filter
        (fun d => snapCex.resolve d == "/dev/ttyACM0")).length = 2 :=
  ⟨rfl, rfl, rfl⟩

instance : IsTotal String acmFirstLe := ⟨by
  intro x y
  by_cases hx : strContains x "/ttyACM" = true <;>
    by_cases hy : strContains y "/ttyACM" = true
  · rcases le_total x y with h | h
    · exact Or.inl (Or.inl ⟨by rw [hx, hy], h⟩)
    · exact Or.inr (Or.inl ⟨by rw [hx, hy], h⟩)
  · exact Or.inl (Or.inr ⟨hx, Bool.eq_false_iff.mpr hy⟩)
  · exact Or.inr (Or.inr ⟨hy, Bool.eq_false_iff.mpr hx⟩)
  · rcases le_total x y with h | h
    · exact Or.inl (Or.inl ⟨by rw [Bool.eq_false_iff.mpr hx, Bool.eq_false_iff.mpr hy], h⟩)
    · exact Or.inr (Or.inl ⟨by rw [Bool.eq_false_iff.mpr hx, Bool.eq_false_iff.mpr hy], h⟩)⟩

instance : IsTrans String acmFirstLe := ⟨by
  intro a b c hab hbc
  rcases hab with ⟨he1, hle1⟩ | ⟨ha, hb⟩
  · rcases hbc with ⟨he2, hle2⟩ | ⟨hb2, hc2⟩
    · exact Or.inl ⟨he1.trans he2, hle1.trans hle2⟩
    · exact Or.inr ⟨he1.trans hb2, hc2⟩
  · rcases hbc with ⟨he2, hle2⟩ | ⟨hb2, hc2⟩
    · exact Or.inr ⟨ha, he2 ▸ hb⟩
    · rw [hb] at hb2
      exact absurd hb2 (by decide)⟩

theorem appendCommon_spec (pe : String → Bool) (cs : List String) :
    ∀ acc : List String, acc.Nodup →
      (appendCommon pe acc cs).Nodup ∧
      ∃ extras, appendCommon pe acc cs = acc ++ extras ∧
        ∀ c ∈ extras, pe c = true ∧ c ∉ acc := by
  induction cs with
  | nil =>
      intro acc hacc
      exact ⟨hacc, [], by simp [appendCommon], by simp⟩
  | cons c cs ih =>
      intro acc hacc
      by_cases hc : c ∉ acc ∧ pe c = true
      · have hstep : appendCommon pe acc (c :: cs) = appendCommon pe (acc ++ [c]) cs := by
          rw [appendCommon, if_pos hc]
        have hacc' : (acc ++ [c]).Nodup := by
          simp [List.nodup_append, hacc, hc.1]
        obtain ⟨hnd, extras, heq, hprop⟩ := ih (acc ++ [c]) hacc'
        rw [hstep]
        refine ⟨hnd, c :: extras, by rw [heq]; simp, ?_⟩
        intro d hd
        rcases List.mem_cons.mp hd with rfl | hd
        · exact ⟨hc.2, hc.1⟩
        · obtain ⟨hp1, hp2⟩ := hprop d hd
          exact ⟨hp1, fun hmem2 => hp2 (by simp [hmem2])⟩
      · have hstep : appendCommon pe acc (c :: cs) = appendCommon pe acc cs := by
          rw [appendCommon, if_neg hc]
        rw [hstep]
        exact ih acc hacc

theorem sortedDetected_nodup (snap : Snapshot) (h : snap.comports.Nodup) :
    (sortedDetected snap).Nodup :=
  ((List.perm_insertionSort acmFirstLe (detectedPorts snap)).nodup_iff).mpr
    (h.filter isCandidateDevice)

/-- On a duplicate-free fallback list, the appending loop appends
exactly the entries that exist on the filesystem and are not already in
the starting list, in order: the membership test against the growing
list coincides with the test against the starting list because each
fallback entry differs from every previously appended one. -/
theorem appendCommon_eq_filter (pe : String → Bool) :
    ∀ (cs acc : List String), cs.Nodup →
      appendCommon pe acc cs
        = acc ++ cs.filter (fun c => decide (c ∉ acc) && pe c) := by
  intro cs
  induction cs with
  | nil =>
      intro acc _
      simp [appendCommon]
  | cons c cs ih =>
      intro acc hnd
      have hccs : c ∉ cs := (List.nodup_cons.mp hnd).1
      have hnd' : cs.Nodup := (List.nodup_cons.mp hnd).2
      by_cases hc : c ∉ acc ∧ pe c = true
      · rw [appendCommon, if_pos hc, ih (acc ++ [c]) hnd']
        have hfeq : cs.filter (fun d => decide (d ∉ acc ++ [c]) && pe d)
            = cs.filter (fun d => decide (d ∉ acc) && pe d) := by
          apply List.filter_congr
          intro d hd
          have hdc : d ≠ c := fun h => hccs (h ▸ hd)
          simp [List.mem_append, hdc]
        have hcons : (c :: cs).filter (fun d => decide (d ∉ acc) && pe d)
            = c :: cs.filter (fun d => decide (d ∉ acc) && pe d) :=
          List.filter_cons_of_pos (by simp [hc.1, hc.2])
        rw [hfeq, hcons]
        simp
      · rw [appendCommon, if_neg hc, ih acc hnd']
        have hcons : (c :: cs).filter (fun d => decide (d ∉ acc) && pe d)
            = cs.filter (fun d => decide (d ∉ acc) && pe d) :=
          List.filter_cons_of_neg (by
            rcases not_and_or.mp hc with h | h
            · simp [not_not.mp h]
            · simp [Bool.eq_false_iff.mpr h])
        rw [hcons]

/-- C7 amended: `enumerate()` returns exactly the actively-detected
candidate devices sorted ACM-class first and lexicographically within
each class, followed by exactly those fixed fallback paths that exist
on the filesystem and are not already present by string equality — but
presence and deduplication are by string equality, not by resolved path
identity, so the result is duplicate-free as strings (given a
duplicate-free OS report), while identity-link aliases of the same
underlying device may appear more than once. -/
theorem enumerate_sorted_nodup (snap : Snapshot) (hnd : snap.comports.Nodup) :
    (listCandidatePorts snap).Nodup ∧
    List.Sorted acmFirstLe (sortedDetected snap) ∧
    listCandidatePorts snap
      = sortedDetected snap ++
          commonPorts.filter
            (fun c => decide (c ∉ sortedDetected snap) && snap.pathExists c) := by
  obtain ⟨h1, _, _, _⟩ :=
    appendCommon_spec snap.pathExists commonPorts (sortedDetected snap)
      (sortedDetected_nodup snap hnd)
  exact ⟨h1, List.sorted_insertionSort acmFirstLe _,
    appendCommon_eq_filter snap.pathExists commonPorts (sortedDetected snap)
      (by decide)⟩

/-- A duplicate-free snapshot exercising both device classes and one
existing fallback. -/
def snapW : Snapshot :=
  { comports := ["/dev/ttyUSB7", "/dev/ttyACM3"],
    pathExists := fun p => p == "/dev/ttyACM0",
    resolve := fun p => p }

/-- Witness for the amended C7 theorem on `snapW`. -/
theorem enumerate_sorted_nodup_witness :
    snapW.comports.Nodup ∧
    ((listCandidatePorts snapW).Nodup ∧
     List.Sorted acmFirstLe (sortedDetected snapW) ∧
     listCandidatePorts snapW
       = sortedDetected snapW ++
           commonPorts.filter
             (fun c => decide (c ∉ sortedDetected snapW) && snapW.pathExists c)) :=
  ⟨by decide, enumerate_sorted_nodup snapW (by decide)⟩

end Joao
